import Mathlib

/-!
Verification of the agent-dashboard server (src/server.cjs).

The development shallowly embeds the stateful core of the server:

* the persisted history snapshot (loadHistory / saveHistory / addHistoryPoint),
  both at the level of raw JSON documents (to capture the error behaviour of
  the untyped JavaScript code) and at the level of well-formed snapshots
  (an association list of named point series);
* the hourly throttle that guards the two addHistoryPoint call sites
  (the wallet and trust handlers);
* the attestation classifier of the /api/attestations handler
  (tag extraction, direction, stable descending sort, partition);
* the /api/dvm result mapping (content preview truncation);
* the event collector of the relay subscription, as a small transition
  system over the states of its timeout timer, its subscription and its
  result promise.

Machine integers do not matter here: every numeric value involved
(millisecond timestamps, sat balances, trust scores) stays far below 2^53,
where JavaScript number arithmetic is exact integer arithmetic, so numbers
are embedded as Lean integers.
-/

namespace AgentDashboard

/-! ## History snapshot, structured level

A well-formed history snapshot is a JavaScript object mapping series keys
to arrays of points.  JavaScript objects keep property insertion order, so
the snapshot is embedded as an association list. -/

/-- A point of a history series: literal translation of the record
pushed by addHistoryPoint in src/server.cjs. -/
structure HistoryPoint where
  timestamp : Int
  value : Int
deriving DecidableEq, Repr

/-- A well-formed history snapshot: series keys mapped to point lists,
in property insertion order. -/
abbrev History := List (String × List HistoryPoint)

/-- The retention window of addHistoryPoint: 7 * 24 * 60 * 60 * 1000 ms. -/
def retentionMs : Int := 7 * 24 * 60 * 60 * 1000

/-- Property read h[key] on a snapshot object. -/
def getSeries : History → String → Option (List HistoryPoint)
  | [], _ => none
  | kv :: rest, key => if kv.1 = key then some kv.2 else getSeries rest key

/-- Property write h[key] = s on a snapshot object: overwrites the
existing property in place, or creates it at the end (JavaScript property
insertion order). -/
def setSeries : History → String → List HistoryPoint → History
  | [], key, s => [(key, s)]
  | kv :: rest, key, s =>
      if kv.1 = key then (key, s) :: rest else kv :: setSeries rest key s

/-- addHistoryPoint of src/server.cjs on a well-formed snapshot, with the
two Date.now() reads merged into the explicit parameter now (they are the
same millisecond in the source's intent).  The body mirrors the source:
create the series if absent, push the new point, then keep only the points
strictly newer than now minus the 7-day retention window. -/
def addHistoryPoint (key : String) (value : Int) (now : Int) (h : History) : History :=
  let series := (getSeries h key).getD []
  let pushed := series ++ [⟨now, value⟩]
  let weekAgo := now - retentionMs
  setSeries h key (pushed.filter (fun p => decide (weekAgo < p.timestamp)))

/-- The throttled sampler shared by the wallet and trust handlers of
src/server.cjs: read the last point of the series (optional chaining, so a
missing series reads as no last point); append via addHistoryPoint exactly
when there is no last point or it is strictly older than now minus the
minimal interval (the source hardcodes minInterval = 3600000 ms at both
call sites). -/
def maybeSample (key : String) (value : Int) (now : Int) (minInterval : Int)
    (h : History) : History :=
  match (getSeries h key).bind List.getLast? with
  | none => addHistoryPoint key value now h
  | some last =>
      if last.timestamp < now - minInterval then addHistoryPoint key value now h else h

/-! ## History snapshot, raw JSON level

loadHistory parses whatever JSON the snapshot file holds, so its result is
an arbitrary JSON document, not necessarily an object.  The disk is
embedded as either a parse-level failure (file absent, unreadable, or not
valid JSON — the three ways readFileSync/JSON.parse throw) or the parsed
document; textual formatting of the stored file is abstracted away, which
is exact because JSON.stringify/JSON.parse round-trip the documents this
model can express. -/

/-- A JSON document. -/
inductive Json where
  | null
  | bool (b : Bool)
  | num (n : Int)
  | str (s : String)
  | arr (elems : List Json)
  | obj (fields : List (String × Json))

/-- The state of the persisted snapshot file. -/
inductive DiskState where
  | absent
  | unreadable
  | corrupt
  | stored (j : Json)

/-- The default mapping returned on any read or parse failure. -/
def defaultHistoryJson : Json :=
  .obj [("wallet", .arr []), ("trust", .arr [])]

/-- fs.readFileSync followed by JSON.parse: throws unless the file exists,
is readable and holds valid JSON. -/
def readParseHistory : DiskState → Except String Json
  | .absent => .error "ENOENT"
  | .unreadable => .error "EACCES"
  | .corrupt => .error "SyntaxError"
  | .stored j => .ok j

/-- loadHistory of src/server.cjs: the parsed snapshot, with every failure
caught and replaced by the default empty mapping. -/
def loadHistory (d : DiskState) : Json :=
  match readParseHistory d with
  | .ok j => j
  | .error _ => defaultHistoryJson

/-- saveHistory of src/server.cjs: overwrite the snapshot file with the
serialized document (serialization abstracted, see above). -/
def saveHistory (j : Json) : DiskState := .stored j

/-- Property lookup on the field list of a JSON object. -/
def jsonLookup : List (String × Json) → String → Option Json
  | [], _ => none
  | kv :: rest, key => if kv.1 = key then some kv.2 else jsonLookup rest key

/-- Property write on the field list of a JSON object: in-place overwrite,
or creation at the end. -/
def jsonSet : List (String × Json) → String → Json → List (String × Json)
  | [], key, v => [(key, v)]
  | kv :: rest, key, v =>
      if kv.1 = key then (key, v) :: rest else kv :: jsonSet rest key v

/-- The JSON encoding of the point pushed by addHistoryPoint. -/
def pointJson (now value : Int) : Json :=
  .obj [("timestamp", .num now), ("value", .num value)]

/-- JavaScript ToNumber on the JSON values that can sit in a timestamp
field, with none for NaN.  Strings are handled for the integer literals
this model can store (other strings coerce to NaN). -/
def toNumber? : Json → Option Int
  | .null => some 0
  | .bool b => some (if b then 1 else 0)
  | .num n => some n
  | .str s => if s.trim = "" then some 0 else s.trim.toInt?
  | .arr [] => some 0
  | .arr [x] => toNumber? x
  | .arr (_ :: _ :: _) => none
  | .obj _ => none

/-- The property read p.timestamp inside the retention filter: throws on a
null element, reads the field of an object, and yields undefined (none) on
any other element.  (On an array element a non-index name like "timestamp"
is also undefined.) -/
def readTimestamp : Json → Except String (Option Json)
  | .null => .error "TypeError: cannot read properties of null"
  | .obj fields => .ok (jsonLookup fields "timestamp")
  | _ => .ok none

/-- The comparison weekAgo < p.timestamp of the retention filter:
undefined and NaN compare false. -/
def jsGtNum (x : Option Json) (bound : Int) : Bool :=
  match x with
  | none => false
  | some v =>
      match toNumber? v with
      | none => false
      | some m => decide (bound < m)

/-- Array.prototype.filter over the pushed series, left to right, with the
predicate p.timestamp > weekAgo; the first throwing element aborts. -/
def filterPointsJson (weekAgo : Int) : List Json → Except String (List Json)
  | [] => .ok []
  | p :: rest => do
      let ts ← readTimestamp p
      let tail ← filterPointsJson weekAgo rest
      .ok (if jsGtNum ts weekAgo then p :: tail else tail)

/-- addHistoryPoint of src/server.cjs on the raw parsed snapshot, keeping
the JavaScript semantics of each property access in sloppy mode:

* snapshot null: reading history[key] throws at once;
* snapshot number, string or boolean: history[key] is undefined, the
  guarded init history[key] = [] silently fails on a primitive, and
  pushing onto undefined throws;
* snapshot array: a non-index key (the source only ever passes "wallet"
  and "trust") reads as undefined, the init succeeds as a named property
  of the array object, push and filter act on that fresh empty array, and
  JSON.stringify then drops the named property, so the stored array is
  written back unchanged;
* snapshot object: the source's normal path — init the series if its
  current value is falsy, throw if it is a truthy non-array, push the new
  point, apply the retention filter, persist. -/
def addHistoryPointJson (key : String) (value : Int) (now : Int)
    (d : DiskState) : Except String DiskState := do
  let history := loadHistory d
  match history with
  | .null => .error "TypeError: cannot read properties of null"
  | .num _ | .str _ | .bool _ =>
      .error "TypeError: cannot read properties of undefined"
  | .arr elems => .ok (saveHistory (.arr elems))
  | .obj fields =>
      let series ←
        match jsonLookup fields key with
        | none => Except.ok []
        | some (.arr elems) => Except.ok elems
        | some .null => Except.ok []
        | some (.num n) =>
            if n = 0 then Except.ok [] else Except.error "TypeError: push is not a function"
        | some (.str s) =>
            if s = "" then Except.ok [] else Except.error "TypeError: push is not a function"
        | some (.bool b) =>
            if b then Except.error "TypeError: push is not a function" else Except.ok []
        | some (.obj _) => Except.error "TypeError: push is not a function"
      let pushed := series ++ [pointJson now value]
      let kept ← filterPointsJson (now - retentionMs) pushed
      .ok (saveHistory (.obj (jsonSet fields key (.arr kept))))

/-! ## Attestation classifier (/api/attestations) -/

/-- A raw relay event, with the fields the server reads. -/
structure RawEvent where
  id : String
  pubkey : String
  created_at : Int
  tags : List (List String)
  content : String
deriving DecidableEq, Repr

/-- The direction field computed for each attestation. -/
inductive Direction where
  | given
  | received
deriving DecidableEq, Repr

/-- The attestation record built in the /api/attestations handler. -/
structure Attestation where
  id : String
  «from» : String
  «to» : Option String
  type : Option String
  comment : String
  timestamp : Int
  direction : Direction
deriving DecidableEq, Repr

/-- The per-event mapping of the /api/attestations handler: first-match
tag scans (a missing tag or a missing value slot reads as undefined, and
the comment defaults to the empty string), and direction given exactly
when the event's pubkey is the reference identity. -/
def toAttestation (refPk : String) (e : RawEvent) : Attestation :=
  { id := e.id
    «from» := e.pubkey
    «to» := (e.tags.find? (fun t => decide (t.get? 0 = some "p"))).bind (fun t => t.get? 1)
    type := (e.tags.find? (fun t =>
      decide (t.get? 0 = some "l") && decide (t.get? 2 = some "ai.wot"))).bind
        (fun t => t.get? 1)
    comment := ((e.tags.find? (fun t =>
      decide (t.get? 0 = some "comment"))).bind (fun t => t.get? 1)).getD ""
    timestamp := e.created_at
    direction := if e.pubkey = refPk then .given else .received }

/-- The order of the comparator (a, b) => b.timestamp - a.timestamp of
the handler: a sorts no later than b exactly when the comparator value is
nonpositive, i.e. when b.timestamp ≤ a.timestamp. -/
def tsLeB (a b : Attestation) : Bool := decide (b.timestamp ≤ a.timestamp)

/-- attestations.sort of the handler.  Array.prototype.sort is required
to be stable, so the call is embedded as the stable merge sort over the
comparator's order: any two stable sorts for the same total preorder
agree elementwise. -/
def sortByTimestampDesc (l : List Attestation) : List Attestation :=
  l.mergeSort tsLeB

/-- The response shape of /api/attestations. -/
structure AttestationBatch where
  received : List Attestation
  given : List Attestation
deriving DecidableEq, Repr

/-- The event-processing pipeline of the /api/attestations handler: map
each event to an attestation, sort by timestamp descending, and partition
the sorted list by direction with two filters. -/
def classify (events : List RawEvent) (refPk : String) : AttestationBatch :=
  let attestations := sortByTimestampDesc (events.map (toAttestation refPk))
  { received := attestations.filter (fun a => decide (a.direction = .received))
    given := attestations.filter (fun a => decide (a.direction = .given)) }

/-! ## DVM result mapping (/api/dvm) -/

/-- One entry of recentResults. -/
structure DvmResult where
  id : String
  timestamp : Int
  contentPreview : String
deriving DecidableEq, Repr

/-- The response shape of /api/dvm. -/
structure DvmResponse where
  recentResults : List DvmResult
  count : Nat
deriving DecidableEq, Repr

/-- The per-event mapping of the /api/dvm handler: the preview is
content.slice(0, 100), with the three-character suffix "..." appended
exactly when the content is longer than 100 characters. -/
def dvmResultOfEvent (e : RawEvent) : DvmResult :=
  { id := e.id
    timestamp := e.created_at
    contentPreview :=
      e.content.take 100 ++ (if 100 < e.content.length then "..." else "") }

/-- The /api/dvm response: the mapped results and their count. -/
def dvmResponse (events : List RawEvent) : DvmResponse :=
  let results := events.map dvmResultOfEvent
  { recentResults := results, count := results.length }

/-! ## Event collector (/api/attestations and /api/dvm subscriptions)

The collector races a 5000 ms timeout against the end-of-stored-events
signal of the subscription.  It is embedded as a transition system: a
state holds the collector's mutable data (the collected array, the
promise, and the close counter we observe) together with the two relevant
facts of the runtime environment — whether the subscription is open
(a closed subscription delivers no further onevent/oneose callbacks) and
whether the timer is still pending (a fired or cleared timer never runs
its callback again; clearTimeout on a pending timer prevents it from ever
firing).  The three transitions run the literal handler bodies of the
source; an event whose guard fails is a no-op of the environment, not of
the handler code. -/

/-- The collector state.  closeCount counts executions of the
sub.close()-and-resolve termination logic; resolved is the promise,
settled at most once. -/
structure CollectorState where
  subOpen : Bool
  timerPending : Bool
  resolved : Option (List RawEvent)
  collected : List RawEvent
  closeCount : Nat
deriving DecidableEq, Repr

/-- The state right after relay.subscribe returns: timer armed,
subscription open, nothing collected, promise pending. -/
def initCollector : CollectorState :=
  { subOpen := true, timerPending := true, resolved := none,
    collected := [], closeCount := 0 }

/-- The events that can reach the collector: a stored event delivery, the
end-of-stored-events signal, and the timeout firing. -/
inductive CollectorEvent where
  | deliver (e : RawEvent)
  | eose
  | timerFire
deriving DecidableEq, Repr

/-- Promise resolution: the first resolve wins, later resolves are
ignored. -/
def resolveOnce (r : Option (List RawEvent)) (l : List RawEvent) :
    Option (List RawEvent) :=
  match r with
  | some x => some x
  | none => some l

/-- One step of the collector.  onevent pushes onto collected; oneose runs
clearTimeout(timeout); sub.close(); resolve(collected); the timeout
callback runs sub.close(); resolve(collected) and leaves the timer
spent. -/
def collectorStep (s : CollectorState) (a : CollectorEvent) : CollectorState :=
  match a with
  | .deliver e =>
      if s.subOpen then { s with collected := s.collected ++ [e] } else s
  | .eose =>
      if s.subOpen then
        { subOpen := false, timerPending := false,
          resolved := resolveOnce s.resolved s.collected,
          collected := s.collected, closeCount := s.closeCount + 1 }
      else s
  | .timerFire =>
      if s.timerPending then
        { subOpen := false, timerPending := false,
          resolved := resolveOnce s.resolved s.collected,
          collected := s.collected, closeCount := s.closeCount + 1 }
      else s

/-- Run the collector over an interleaving of deliveries, the
end-of-stream signal and the timeout. -/
def runCollector (acts : List CollectorEvent) : CollectorState :=
  acts.foldl collectorStep initCollector

/-! ## Helper lemmas -/

theorem retentionMs_pos : 0 < retentionMs := by decide

theorem getSeries_setSeries_self (h : History) (key : String) (s : List HistoryPoint) :
    getSeries (setSeries h key s) key = some s := by
  induction h with
  | nil => simp [setSeries, getSeries]
  | cons kv rest ih =>
      by_cases hk : kv.1 = key
      · simp [setSeries, getSeries, hk]
      · simp [setSeries, getSeries, hk, ih]

theorem getSeries_setSeries_ne (h : History) (key k2 : String) (s : List HistoryPoint)
    (hne : k2 ≠ key) : getSeries (setSeries h key s) k2 = getSeries h k2 := by
  induction h with
  | nil => simp [setSeries, getSeries, Ne.symm hne]
  | cons kv rest ih =>
      by_cases hk : kv.1 = key
      · simp [setSeries, getSeries, hk, Ne.symm hne]
      · by_cases hk2 : kv.1 = k2
        · simp [setSeries, getSeries, hk, hk2, hne]
        · simp [setSeries, getSeries, hk, hk2, ih]

theorem addHistoryPoint_getSeries (key : String) (v now : Int) (h : History) :
    getSeries (addHistoryPoint key v now h) key =
      some ((((getSeries h key).getD []).filter
          (fun p => decide (now - retentionMs < p.timestamp))) ++ [⟨now, v⟩]) := by
  unfold addHistoryPoint
  rw [getSeries_setSeries_self, List.filter_append]
  have hkeep : List.filter (fun p => decide (now - retentionMs < p.timestamp))
      [(⟨now, v⟩ : HistoryPoint)] = [⟨now, v⟩] := by
    rw [List.filter_eq_self]
    intro a ha
    rw [List.mem_singleton] at ha
    subst ha
    rw [decide_eq_true_eq]
    show now - retentionMs < now
    have := retentionMs_pos
    omega
  rw [hkeep]

theorem addHistoryPoint_getSeries_ne (key k2 : String) (v now : Int) (h : History)
    (hne : k2 ≠ key) :
    getSeries (addHistoryPoint key v now h) k2 = getSeries h k2 := by
  unfold addHistoryPoint
  exact getSeries_setSeries_ne h key k2 _ hne

/-! ## C7: appendPoint retention and append shape -/

/-- C7: after addHistoryPoint key v now, the series for key exists and
equals the old series pruned of every point at or older than the
retention cutoff, with the fresh point appended last; in particular no
surviving point of that series has timestamp at or below
now - 7*24*60*60*1000. -/
theorem addHistoryPoint_retention_append (key : String) (v now : Int) (h : History) :
    getSeries (addHistoryPoint key v now h) key =
      some ((((getSeries h key).getD []).filter
          (fun p => decide (now - retentionMs < p.timestamp))) ++ [⟨now, v⟩]) ∧
    ∀ p ∈ (getSeries (addHistoryPoint key v now h) key).getD [],
      ¬ p.timestamp ≤ now - retentionMs := by
  refine ⟨addHistoryPoint_getSeries key v now h, ?_⟩
  intro p hp
  rw [addHistoryPoint_getSeries key v now h] at hp
  simp only [Option.getD_some, List.mem_append, List.mem_filter, List.mem_singleton] at hp
  rcases hp with ⟨_, hkeep⟩ | hEq
  · simp only [decide_eq_true_eq] at hkeep
    omega
  · subst hEq
    have := retentionMs_pos
    simp only
    omega

/-- Witness for C7 at a concrete input: the point just appended survives
the retention cutoff. -/
theorem addHistoryPoint_retention_append_witness :
    ¬ (⟨5, 1⟩ : HistoryPoint).timestamp ≤ 5 - retentionMs :=
  (addHistoryPoint_retention_append "wallet" 1 5 []).2 ⟨5, 1⟩ (by decide)

/-! ## C3: the all-series retention invariant fails -/

/-- The snapshot used to refute C3: a stale point in the trust series. -/
def histStale : History := [("trust", [⟨0, 0⟩])]

/-- C3 counterexample: writing to the wallet series does not prune the
trust series, so one millisecond after the stale trust point leaves the
retention window the claimed all-series invariant is violated. -/
theorem retention_all_series_counterexample :
    ¬ ∀ kv ∈ addHistoryPoint "wallet" 1 604800001 histStale,
        ∀ p ∈ kv.2, 604800001 - retentionMs < p.timestamp := by
  decide

/-- C3 amended: after addHistoryPoint key v now, every point of the
series that was written satisfies the retention bound, and every other
series is left exactly as it was (stale points included). -/
theorem addHistoryPoint_retention_written (key : String) (v now : Int) (h : History) :
    (∀ p ∈ (getSeries (addHistoryPoint key v now h) key).getD [],
        now - retentionMs < p.timestamp) ∧
    ∀ k2, k2 ≠ key → getSeries (addHistoryPoint key v now h) k2 = getSeries h k2 := by
  refine ⟨?_, fun k2 hne => addHistoryPoint_getSeries_ne key k2 v now h hne⟩
  intro p hp
  rw [addHistoryPoint_getSeries key v now h] at hp
  simp only [Option.getD_some, List.mem_append, List.mem_filter,
    List.mem_singleton] at hp
  rcases hp with ⟨_, hkeep⟩ | hEq
  · simp only [decide_eq_true_eq] at hkeep
    exact hkeep
  · subst hEq
    show now - retentionMs < now
    have := retentionMs_pos
    omega

/-- Witness for the amended C3 at a concrete input. -/
theorem addHistoryPoint_retention_written_witness :
    (604800001 - retentionMs < (⟨604800001, 1⟩ : HistoryPoint).timestamp) ∧
    getSeries (addHistoryPoint "wallet" 1 604800001 histStale) "trust" =
      getSeries histStale "trust" :=
  ⟨(addHistoryPoint_retention_written "wallet" 1 604800001 histStale).1 ⟨604800001, 1⟩
      (by decide),
    (addHistoryPoint_retention_written "wallet" 1 604800001 histStale).2 "trust"
      (by decide)⟩

/-! ## C6: loadHistory is total and defaults on failure -/

/-- C6: on an absent, unreadable or corrupt snapshot, loadHistory returns
the default empty mapping (it cannot raise: its result type is total),
and the next write — the code only ever writes the wallet and trust
series — simply overwrites the bad state with a fresh stored snapshot
holding the sampled point. -/
theorem loadHistory_total_default (d : DiskState)
    (hbad : d = .absent ∨ d = .unreadable ∨ d = .corrupt) :
    loadHistory d = defaultHistoryJson ∧
    ∀ v t : Int,
      addHistoryPointJson "wallet" v t d =
        .ok (saveHistory (.obj [("wallet", .arr [pointJson t v]), ("trust", .arr [])])) ∧
      addHistoryPointJson "trust" v t d =
        .ok (saveHistory (.obj [("wallet", .arr []), ("trust", .arr [pointJson t v])])) := by
  have hload : loadHistory d = defaultHistoryJson := by
    rcases hbad with rfl | rfl | rfl <;> rfl
  refine ⟨hload, ?_⟩
  intro v t
  have hgt : jsGtNum (some (Json.num t)) (t - retentionMs) = true := by
    have h0 : jsGtNum (some (Json.num t)) (t - retentionMs) =
        decide (t - retentionMs < t) := rfl
    rw [h0, decide_eq_true_eq]
    have := retentionMs_pos
    omega
  rcases hbad with rfl | rfl | rfl <;>
    exact ⟨by
        show Except.ok (saveHistory (.obj [("wallet", Json.arr
            (if jsGtNum (some (Json.num t)) (t - retentionMs) then [pointJson t v] else [])),
          ("trust", Json.arr [])])) = _
        rw [hgt]
        rfl,
      by
        show Except.ok (saveHistory (.obj [("wallet", Json.arr []), ("trust", Json.arr
            (if jsGtNum (some (Json.num t)) (t - retentionMs) then [pointJson t v] else []))])) = _
        rw [hgt]
        rfl⟩

/-- Witness for C6 at the corrupt snapshot. -/
theorem loadHistory_total_default_witness :
    loadHistory .corrupt = defaultHistoryJson ∧
    addHistoryPointJson "wallet" 7 5 .corrupt =
      .ok (saveHistory (.obj [("wallet", .arr [pointJson 5 7]), ("trust", .arr [])])) :=
  ⟨(loadHistory_total_default .corrupt (Or.inr (Or.inr rfl))).1,
    ((loadHistory_total_default .corrupt (Or.inr (Or.inr rfl))).2 7 5).1⟩

/-! ## C8: save after load is a semantic no-op -/

/-- C8: composing saveHistory with loadHistory does not change the
semantic content of the snapshot — reading the disk again yields exactly
what it yielded before, for every disk state including an absent,
unreadable or corrupt one.  (Textual formatting is abstracted by the
parsed-document disk model, which is the whitespace-insensitive reading
of the claim.) -/
theorem saveHistory_loadHistory_roundtrip (d : DiskState) :
    loadHistory (saveHistory (loadHistory d)) = loadHistory d := by
  cases d <;> rfl

/-! ## C4: the throttled sampler -/

theorem maybeSample_of_last_recent (key : String) (v t minI : Int) (h : History)
    (last : HistoryPoint) (hlast : (getSeries h key).bind List.getLast? = some last)
    (hge : ¬ last.timestamp < t - minI) : maybeSample key v t minI h = h := by
  unfold maybeSample
  rw [hlast]
  exact if_neg hge

theorem maybeSample_of_no_last (key : String) (v t minI : Int) (h : History)
    (hnone : (getSeries h key).bind List.getLast? = none) :
    maybeSample key v t minI h = addHistoryPoint key v t h := by
  unfold maybeSample
  rw [hnone]

theorem maybeSample_of_last_old (key : String) (v t minI : Int) (h : History)
    (last : HistoryPoint) (hlast : (getSeries h key).bind List.getLast? = some last)
    (hlt : last.timestamp < t - minI) : maybeSample key v t minI h = addHistoryPoint key v t h := by
  unfold maybeSample
  rw [hlast]
  exact if_pos hlt

theorem getLast?_after_addHistoryPoint (key : String) (v t : Int) (h : History) :
    (getSeries (addHistoryPoint key v t h) key).bind List.getLast? =
      some ⟨t, v⟩ := by
  rw [addHistoryPoint_getSeries]
  simp [List.getLast?_concat]

/-- C4: the throttle of the wallet and trust handlers.  If the series has
a last point no older than minInterval before now, sampling is a no-op;
if it has no last point, or the last point is strictly older, exactly the
point {timestamp: now, value} is appended (after the retention pruning of
that series); and for a non-negative interval a second sample at the same
instant is always a no-op, so two same-instant calls store one point in
total. -/
theorem maybeSample_throttle (key : String) (v t minI : Int) (h : History) :
    (∀ last, (getSeries h key).bind List.getLast? = some last →
        t - minI ≤ last.timestamp → maybeSample key v t minI h = h) ∧
    ((getSeries h key).bind List.getLast? = none ∨
        (∃ last, (getSeries h key).bind List.getLast? = some last ∧
          last.timestamp < t - minI) →
      getSeries (maybeSample key v t minI h) key =
        some ((((getSeries h key).getD []).filter
            (fun p => decide (t - retentionMs < p.timestamp))) ++ [⟨t, v⟩])) ∧
    (0 ≤ minI →
      maybeSample key v t minI (maybeSample key v t minI h) =
        maybeSample key v t minI h) := by
  refine ⟨?_, ?_, ?_⟩
  · intro last hlast hge
    exact maybeSample_of_last_recent key v t minI h last hlast (not_lt.mpr hge)
  · rintro (hnone | ⟨last, hlast, hlt⟩)
    · rw [maybeSample_of_no_last key v t minI h hnone]
      exact addHistoryPoint_getSeries key v t h
    · rw [maybeSample_of_last_old key v t minI h last hlast hlt]
      exact addHistoryPoint_getSeries key v t h
  · intro hmin
    have hfresh : ¬ (⟨t, v⟩ : HistoryPoint).timestamp < t - minI := by
      show ¬ t < t - minI
      omega
    cases hr : (getSeries h key).bind List.getLast? with
    | none =>
        rw [maybeSample_of_no_last key v t minI h hr]
        exact maybeSample_of_last_recent key v t minI _ ⟨t, v⟩
          (getLast?_after_addHistoryPoint key v t h) hfresh
    | some last =>
        by_cases hlt : last.timestamp < t - minI
        · rw [maybeSample_of_last_old key v t minI h last hr hlt]
          exact maybeSample_of_last_recent key v t minI _ ⟨t, v⟩
            (getLast?_after_addHistoryPoint key v t h) hfresh
        · have hno := maybeSample_of_last_recent key v t minI h last hr hlt
          rw [hno]
          exact hno

/-- The series of the spec scenario for C4: one trust point at t = 0. -/
def histSample : History := [("trust", [⟨0, 50⟩])]

/-- Witness for C4: with the stored point at 0, sampling at 1000 ms is a
no-op, and a repeated sample at 3700000 ms changes nothing beyond the
first. -/
theorem maybeSample_throttle_witness :
    maybeSample "trust" 60 1000 3600000 histSample = histSample ∧
    maybeSample "trust" 60 3700000 3600000 (maybeSample "trust" 60 3700000 3600000 histSample) =
      maybeSample "trust" 60 3700000 3600000 histSample :=
  ⟨(maybeSample_throttle "trust" 60 1000 3600000 histSample).1 ⟨0, 50⟩ rfl (by decide),
    (maybeSample_throttle "trust" 60 3700000 3600000 histSample).2.2 (by decide)⟩

/-! ## C5: the collector race terminates at most once -/

/-- The collector invariant: either nothing has terminated yet (timer
armed, subscription open, promise pending) or the termination logic has
run exactly once (timer disarmed, subscription closed, promise settled
with the collected events). -/
def collectorInv (s : CollectorState) : Prop :=
  (s.subOpen = true ∧ s.timerPending = true ∧ s.resolved = none ∧ s.closeCount = 0) ∨
  (s.subOpen = false ∧ s.timerPending = false ∧ s.resolved = some s.collected ∧
    s.closeCount = 1)

theorem collectorInv_init : collectorInv initCollector :=
  Or.inl ⟨rfl, rfl, rfl, rfl⟩

theorem collectorInv_step (s : CollectorState) (a : CollectorEvent)
    (hs : collectorInv s) : collectorInv (collectorStep s a) := by
  rcases hs with ⟨h1, h2, h3, h4⟩ | ⟨h1, h2, h3, h4⟩ <;> cases a <;>
    simp [collectorStep, collectorInv, h1, h2, h3, h4, resolveOnce]

theorem collectorInv_run (acts : List CollectorEvent) :
    ∀ s, collectorInv s → collectorInv (acts.foldl collectorStep s) := by
  induction acts with
  | nil => intro s hs; exact hs
  | cons a rest ih =>
      intro s hs
      rw [List.foldl_cons]
      exact ih _ (collectorInv_step s a hs)

/-- C5: in every interleaving of event deliveries, the end-of-stream
signal and the timeout, the termination logic runs at most once, the
promise resolves only to the collected events and only together with a
single termination, and once the race is settled every further event —
including a late end-of-stream after the timeout won, or a late timeout
after the signal won — is a no-op. -/
theorem collector_single_termination (acts : List CollectorEvent) :
    (runCollector acts).closeCount ≤ 1 ∧
    ((runCollector acts).resolved = none ∨
      (runCollector acts).resolved = some (runCollector acts).collected) ∧
    (∀ l, (runCollector acts).resolved = some l →
      (runCollector acts).closeCount = 1 ∧ (runCollector acts).subOpen = false) ∧
    ((runCollector acts).subOpen = false →
      ∀ a, collectorStep (runCollector acts) a = runCollector acts) := by
  have hinv : collectorInv (runCollector acts) :=
    collectorInv_run acts initCollector collectorInv_init
  rcases hinv with ⟨h1, h2, h3, h4⟩ | ⟨h1, h2, h3, h4⟩
  · refine ⟨by omega, Or.inl h3, ?_, ?_⟩
    · intro l hl
      rw [h3] at hl
      exact Option.noConfusion hl
    · intro hclosed
      rw [h1] at hclosed
      exact Bool.noConfusion hclosed
  · refine ⟨by omega, Or.inr h3, fun l _ => ⟨h4, h1⟩, ?_⟩
    intro _ a
    cases a with
    | deliver e => simp [collectorStep, h1]
    | eose => simp [collectorStep, h1]
    | timerFire => simp [collectorStep, h2]

/-- Concrete events for the C5 witness. -/
def evA : RawEvent := ⟨"a", "pk1", 1, [], ""⟩

def evB : RawEvent := ⟨"b", "pk2", 2, [], ""⟩

def evC : RawEvent := ⟨"c", "pk1", 3, [], ""⟩

/-- The spec scenario: three deliveries, the end-of-stream signal, then
the late timeout. -/
def raceActs : List CollectorEvent :=
  [.deliver evA, .deliver evB, .deliver evC, .eose, .timerFire]

/-- Witness for C5 on the scenario trace: the close logic ran exactly
once and the late timer firing is a no-op. -/
theorem collector_single_termination_witness :
    (runCollector raceActs).closeCount ≤ 1 ∧
    ((runCollector raceActs).closeCount = 1 ∧ (runCollector raceActs).subOpen = false) ∧
    collectorStep (runCollector raceActs) .timerFire = runCollector raceActs :=
  ⟨(collector_single_termination raceActs).1,
    (collector_single_termination raceActs).2.2.1 [evA, evB, evC] rfl,
    (collector_single_termination raceActs).2.2.2 rfl CollectorEvent.timerFire⟩

/-! ## C1 and C2: classifier partition, order and stability -/

theorem tsLeB_trans : ∀ a b c : Attestation,
    tsLeB a b = true → tsLeB b c = true → tsLeB a c = true := by
  intro a b c h1 h2
  rw [tsLeB, decide_eq_true_eq] at h1 h2 ⊢
  omega

theorem tsLeB_total : ∀ a b : Attestation, (tsLeB a b || tsLeB b a) = true := by
  intro a b
  rw [tsLeB, tsLeB]
  rcases le_total b.timestamp a.timestamp with h | h <;> simp [h]

/-- C1: the given sequence holds exactly the attestations of the events
authored by the reference identity, the received sequence exactly those
of the remaining events, and the two lengths sum to the batch size. -/
theorem classify_partition (events : List RawEvent) (refPk : String) :
    (classify events refPk).given.Perm
      ((events.filter (fun e => decide (e.pubkey = refPk))).map (toAttestation refPk)) ∧
    (classify events refPk).received.Perm
      ((events.filter (fun e => !decide (e.pubkey = refPk))).map (toAttestation refPk)) ∧
    (classify events refPk).given.length + (classify events refPk).received.length =
      events.length := by
  have hperm : (sortByTimestampDesc (events.map (toAttestation refPk))).Perm
      (events.map (toAttestation refPk)) := List.mergeSort_perm _ _
  have hgp : (classify events refPk).given.Perm
      ((events.map (toAttestation refPk)).filter
        (fun a => decide (a.direction = Direction.given))) :=
    hperm.filter _
  have hrp : (classify events refPk).received.Perm
      ((events.map (toAttestation refPk)).filter
        (fun a => decide (a.direction = Direction.received))) :=
    hperm.filter _
  have hgeq : (events.map (toAttestation refPk)).filter
      (fun a => decide (a.direction = Direction.given)) =
      (events.filter (fun e => decide (e.pubkey = refPk))).map (toAttestation refPk) := by
    rw [List.filter_map]
    congr 1
    apply List.filter_congr
    intro e _
    show decide ((toAttestation refPk e).direction = Direction.given) =
      decide (e.pubkey = refPk)
    by_cases hpk : e.pubkey = refPk <;> simp [toAttestation, hpk]
  have hreq : (events.map (toAttestation refPk)).filter
      (fun a => decide (a.direction = Direction.received)) =
      (events.filter (fun e => !decide (e.pubkey = refPk))).map (toAttestation refPk) := by
    rw [List.filter_map]
    congr 1
    apply List.filter_congr
    intro e _
    show decide ((toAttestation refPk e).direction = Direction.received) =
      !decide (e.pubkey = refPk)
    by_cases hpk : e.pubkey = refPk <;> simp [toAttestation, hpk]
  refine ⟨hgeq ▸ hgp, hreq ▸ hrp, ?_⟩
  have hnot : (events.map (toAttestation refPk)).filter
      (fun a => decide (a.direction = Direction.received)) =
      (events.map (toAttestation refPk)).filter
        (fun a => !decide (a.direction = Direction.given)) := by
    apply List.filter_congr
    intro a _
    cases h : a.direction <;> simp [h]
  have hsplit := @List.length_eq_length_filter_add _
    (events.map (toAttestation refPk))
    (fun a => decide (a.direction = Direction.given))
  have h1 := hgp.length_eq
  have h2 := hrp.length_eq
  have h3 : ((events.map (toAttestation refPk)).filter
      (fun a => decide (a.direction = Direction.received))).length =
      ((events.map (toAttestation refPk)).filter
        (fun a => !decide (a.direction = Direction.given))).length := by rw [hnot]
  have h4 : (events.map (toAttestation refPk)).length = events.length :=
    List.length_map _ _
  omega

theorem sortByTimestampDesc_filter_fixed (l : List Attestation)
    (p : Attestation → Bool) (t : Int) :
    (sortByTimestampDesc l).filter (fun a => decide (a.timestamp = t) && p a) =
      l.filter (fun a => decide (a.timestamp = t) && p a) := by
  have hmemt : ∀ a ∈ l.filter (fun a => decide (a.timestamp = t) && p a),
      a.timestamp = t := by
    intro a ha
    have h2 : (decide (a.timestamp = t) && p a) = true := (List.mem_filter.mp ha).2
    rw [Bool.and_eq_true] at h2
    exact of_decide_eq_true h2.1
  have hpair : List.Pairwise (fun a b => tsLeB a b = true)
      (l.filter (fun a => decide (a.timestamp = t) && p a)) := by
    apply List.pairwise_of_forall_mem_list
    intro a ha b hb
    rw [tsLeB, decide_eq_true_eq, hmemt a ha, hmemt b hb]
  have hsub : (l.filter (fun a => decide (a.timestamp = t) && p a)).Sublist
      (sortByTimestampDesc l) :=
    List.sublist_mergeSort tsLeB_trans tsLeB_total hpair (List.filter_sublist l)
  have hfq : (l.filter (fun a => decide (a.timestamp = t) && p a)).filter
      (fun a => decide (a.timestamp = t) && p a) =
      l.filter (fun a => decide (a.timestamp = t) && p a) :=
    List.filter_eq_self.mpr (fun a ha => (List.mem_filter.mp ha).2)
  have hsub2 : (l.filter (fun a => decide (a.timestamp = t) && p a)).Sublist
      ((sortByTimestampDesc l).filter (fun a => decide (a.timestamp = t) && p a)) := by
    have h3 := hsub.filter (fun a => decide (a.timestamp = t) && p a)
    rwa [hfq] at h3
  have hperm : ((sortByTimestampDesc l).filter
      (fun a => decide (a.timestamp = t) && p a)).Perm
      (l.filter (fun a => decide (a.timestamp = t) && p a)) :=
    (List.mergeSort_perm l tsLeB).filter _
  exact (hsub2.eq_of_length hperm.length_eq.symm).symm

/-- C2: both output sequences are sorted by timestamp in descending
order, and within any fixed timestamp each sequence lists its
attestations in exactly the order of their source events in the input
batch (stability of the sort, which filters preserve). -/
theorem classify_sorted_stable (events : List RawEvent) (refPk : String) :
    List.Pairwise (fun a b : Attestation => b.timestamp ≤ a.timestamp)
      (classify events refPk).given ∧
    List.Pairwise (fun a b : Attestation => b.timestamp ≤ a.timestamp)
      (classify events refPk).received ∧
    ∀ t : Int,
      (classify events refPk).given.filter (fun a => decide (a.timestamp = t)) =
        ((events.map (toAttestation refPk)).filter
            (fun a => decide (a.direction = Direction.given))).filter
          (fun a => decide (a.timestamp = t)) ∧
      (classify events refPk).received.filter (fun a => decide (a.timestamp = t)) =
        ((events.map (toAttestation refPk)).filter
            (fun a => decide (a.direction = Direction.received))).filter
          (fun a => decide (a.timestamp = t)) := by
  have hsorted : List.Pairwise (fun a b : Attestation => b.timestamp ≤ a.timestamp)
      (sortByTimestampDesc (events.map (toAttestation refPk))) :=
    (List.sorted_mergeSort tsLeB_trans tsLeB_total
      (events.map (toAttestation refPk))).imp (fun h => of_decide_eq_true h)
  refine ⟨List.Pairwise.sublist (List.filter_sublist _) hsorted,
    List.Pairwise.sublist (List.filter_sublist _) hsorted, ?_⟩
  intro t
  constructor
  · show ((sortByTimestampDesc (events.map (toAttestation refPk))).filter
        (fun a => decide (a.direction = Direction.given))).filter
        (fun a => decide (a.timestamp = t)) = _
    rw [List.filter_filter, List.filter_filter]
    exact sortByTimestampDesc_filter_fixed (events.map (toAttestation refPk))
      (fun a => decide (a.direction = Direction.given)) t
  · show ((sortByTimestampDesc (events.map (toAttestation refPk))).filter
        (fun a => decide (a.direction = Direction.received))).filter
        (fun a => decide (a.timestamp = t)) = _
    rw [List.filter_filter, List.filter_filter]
    exact sortByTimestampDesc_filter_fixed (events.map (toAttestation refPk))
      (fun a => decide (a.direction = Direction.received)) t

/-! ## C9: the DVM content preview -/

/-- An event whose content is short: refutes the unconditional-ellipsis
reading of the contentPreview description. -/
def shortEvent : RawEvent := ⟨"e1", "pk", 100, [], "hi"⟩

set_option maxRecDepth 4096 in
/-- C9 counterexample: for a 2-character content the preview is the
content itself — the code appends its suffix only beyond 100 characters,
and the suffix it appends is the three ASCII dots "...", not the single
ellipsis character. -/
theorem dvm_preview_counterexample :
    (dvmResultOfEvent shortEvent).contentPreview ≠
      shortEvent.content.take 100 ++ "…" := by
  decide

theorem take_hundred_append_empty (s : String) (hle : s.length ≤ 100) :
    s.take 100 ++ "" = s := by
  cases s with
  | mk data =>
      rw [String.take_eq]
      show String.mk (data.take 100 ++ []) = String.mk data
      rw [List.append_nil, List.take_of_length_le hle]

/-- C9 amended: the count equals the number of recentResults entries, and
the preview is the content itself when it has at most 100 characters,
and the first 100 characters followed by the three ASCII dots "..." when
it is longer. -/
theorem dvm_preview_amended (events : List RawEvent) (e : RawEvent) :
    (dvmResponse events).count = events.length ∧
    (dvmResponse events).recentResults = events.map dvmResultOfEvent ∧
    (e.content.length ≤ 100 → (dvmResultOfEvent e).contentPreview = e.content) ∧
    (100 < e.content.length →
      (dvmResultOfEvent e).contentPreview = e.content.take 100 ++ "...") := by
  refine ⟨List.length_map events dvmResultOfEvent, rfl, ?_, ?_⟩
  · intro hle
    show e.content.take 100 ++ (if 100 < e.content.length then "..." else "") = e.content
    rw [if_neg (by omega)]
    exact take_hundred_append_empty e.content hle
  · intro hlt
    show e.content.take 100 ++ (if 100 < e.content.length then "..." else "") =
      e.content.take 100 ++ "..."
    rw [if_pos hlt]

/-- Witness for the amended C9 on the short event. -/
theorem dvm_preview_amended_witness :
    (dvmResponse [shortEvent]).count = 1 ∧
    (dvmResultOfEvent shortEvent).contentPreview = shortEvent.content :=
  ⟨(dvm_preview_amended [shortEvent] shortEvent).1,
    (dvm_preview_amended [shortEvent] shortEvent).2.2.1 (by decide)⟩

/-! ## C10: snapshots holding valid JSON that is not an object -/

/-- C10 counterexample: a stored array is valid JSON and not a JSON
object; loadHistory does return it unchanged, but the subsequent
addHistoryPoint does not throw — the sloppy-mode property assignment
lands on the array object and JSON.stringify then drops it, so the write
silently stores the array back unchanged. -/
theorem nonobject_snapshot_counterexample :
    loadHistory (.stored (Json.arr [])) = Json.arr [] ∧
    ¬ ∃ msg, addHistoryPointJson "wallet" 1 5 (.stored (Json.arr [])) = .error msg := by
  refine ⟨rfl, ?_⟩
  rintro ⟨msg, hmsg⟩
  have hok : addHistoryPointJson "wallet" 1 5 (.stored (Json.arr [])) =
      .ok (.stored (Json.arr [])) := rfl
  rw [hok] at hmsg
  exact Except.noConfusion hmsg

/-- C10 amended: for a snapshot holding a JSON primitive — null, a
number, a string or a boolean — loadHistory returns that value unchanged
rather than the default mapping and the subsequent addHistoryPoint
throws; for an array, load also returns it unchanged but the write
completes, storing the array back unchanged (the sampled point is
silently lost). -/
theorem nonobject_snapshot_amended (j : Json) (k : String) (v t : Int)
    (elems : List Json)
    (hprim : j = .null ∨ (∃ n, j = .num n) ∨ (∃ s, j = .str s) ∨ (∃ b, j = .bool b)) :
    loadHistory (.stored j) = j ∧ j ≠ defaultHistoryJson ∧
    (∃ msg, addHistoryPointJson k v t (.stored j) = .error msg) ∧
    loadHistory (.stored (.arr elems)) = .arr elems ∧
    addHistoryPointJson k v t (.stored (.arr elems)) = .ok (.stored (.arr elems)) := by
  refine ⟨rfl, ?_, ?_, rfl, rfl⟩
  · rcases hprim with rfl | ⟨n, rfl⟩ | ⟨s, rfl⟩ | ⟨b, rfl⟩ <;>
      exact fun hEq => Json.noConfusion hEq
  · rcases hprim with rfl | ⟨n, rfl⟩ | ⟨s, rfl⟩ | ⟨b, rfl⟩
    · exact ⟨_, rfl⟩
    · exact ⟨_, rfl⟩
    · exact ⟨_, rfl⟩
    · exact ⟨_, rfl⟩

/-- Witness for the amended C10 at the stored literal null. -/
theorem nonobject_snapshot_amended_witness :
    loadHistory (.stored Json.null) = Json.null ∧
    Json.null ≠ defaultHistoryJson ∧
    (∃ msg, addHistoryPointJson "wallet" 1 5 (.stored Json.null) = .error msg) ∧
    loadHistory (.stored (.arr [])) = .arr [] ∧
    addHistoryPointJson "wallet" 1 5 (.stored (.arr [])) = .ok (.stored (.arr [])) :=
  nonobject_snapshot_amended Json.null "wallet" 1 5 [] (Or.inl rfl)

end AgentDashboard
